import Mathlib

/-!
# A shallow embedding of the go-job logging core (internal/logger/logger.go)

The Go source is modelled as pure Lean functions:

* machine state that the logger mutates (file contents, handle table,
  console output, directory listing, and the environment outcomes of the
  filesystem calls it performs) is collected in a `World` record that every
  operation threads explicitly;
* the `Logger` struct is a Lean structure whose fields mirror the Go
  struct field for field (`logger *log.Logger` becomes `sink :
  Option Sink`, `currentFile *os.File` becomes `currentFile : Option Nat`,
  an index into the world's handle table; `ctx`/`cancel` collapse to the
  single `cancelled` flag they implement);
* fallible filesystem calls (`os.MkdirAll`, `os.OpenFile`, `os.ReadDir`)
  succeed or fail according to Boolean outcome fields of the `World`;
* wall-clock time is abstracted to the two values the code derives from it:
  the current date string (`World.today`, Go `time.Now().Format("2006-01-02")`)
  and the instant of today's local midnight in seconds (`World.midnight`,
  Go `time.Date(y, m, d, 0, 0, 0, 0, loc)`), with `AddDate(0, 0, -n)` on a
  midnight modelled as subtracting `n * 86400` seconds on a calendar-linear
  scale;
* the header that Go's `log.Logger` prepends (date, time, caller) is
  abstracted away: a written line is modelled as the `"[LEVEL] message"`
  payload that `(*Logger).log` builds, which is what the claims are about.

`sort.Slice` (used by `cleanupOldLogs`) is documented by Go as NOT
guaranteed to be stable, so the order of the deletion loop is modelled by
the relation `sortSliceSpec`: any permutation of the input that is sorted
with respect to the strict comparator. The executable `cleanupOldLogs`
below picks one order permitted by that contract (`List.mergeSort`); the
order-sensitive theorems quantify over every order the contract allows.

Lock-discipline facts are modelled separately by per-method action traces
(`Act`), read off statement by statement from the Go source.
-/

namespace GoJob

/-- Go `LogLevel` (an `int`): Debug=0, Info=1, Warn=2, Error=3. -/
abbrev LogLevel := Nat

def DebugLevel : LogLevel := 0
def InfoLevel : LogLevel := 1
def WarnLevel : LogLevel := 2
def ErrorLevel : LogLevel := 3

/-- Go `LoggerConfig`.  `FilePrefix` is rendered as `filePfx`. -/
structure LoggerConfig where
  level : LogLevel := DebugLevel
  outputType : String := ""
  logDir : String := ""
  filePfx : String := ""
  retentionDays : Int := 0
deriving DecidableEq, Repr

/-- The writer wrapped by the Go `log.Logger` stored in `Logger.logger`:
either standard output or an open-file handle (an index into
`World.handles`). -/
inductive Sink where
  | console : Sink
  | file : Nat → Sink
deriving DecidableEq, Repr

/-- Go `Logger` struct.  `sink` models the `logger *log.Logger` field
(`none` = nil), `currentFile` models `currentFile *os.File` as a handle-table
index (`none` = nil), and `cancelled` models the state of the
`ctx`/`cancel` pair. -/
structure Logger where
  level : LogLevel
  outputType : String
  logDir : String
  filePfx : String
  retentionDays : Int
  sink : Option Sink
  currentFile : Option Nat
  cancelled : Bool
deriving DecidableEq, Repr

/-- One open-file handle: the path it writes to and whether it is still
open.  Writing through a closed handle fails (and the code ignores that
failure). -/
structure Handle where
  path : String
  isOpen : Bool
deriving DecidableEq, Repr

/-- One directory entry as seen by `os.ReadDir`, with the fields the
cleanup code inspects: name, directory flag, and last-modified time
(seconds). -/
structure FileEntry where
  name : String
  isDir : Bool
  modTime : Int
deriving DecidableEq, Repr

/-- The machine state threaded through every operation: file contents by
path, the handle table, accumulated console output, the directory listing
used by cleanup, the abstracted clock, and the outcomes of the fallible
filesystem calls. -/
structure World where
  files : String → Option (List String)
  handles : List Handle
  consoleOut : List String
  dirEntries : List FileEntry
  today : String
  midnight : Int
  mkdirOk : Bool
  openOk : Bool
  readDirOk : Bool

/-- `os.OpenFile(path, O_APPEND|O_CREATE|O_WRONLY, 0644)`: fails when the
world says open fails; otherwise creates the file empty when absent,
keeps its contents when present, and returns a fresh open handle
positioned at the end. -/
def World.openAppend (w : World) (path : String) : Option (World × Nat) :=
  if w.openOk then
    let files := fun q => if q = path then some ((w.files path).getD []) else w.files q
    some ({ w with files := files, handles := w.handles ++ [⟨path, true⟩] },
          w.handles.length)
  else
    none

/-- `(*os.File).Close` on handle `hid`: marks it closed. -/
def World.closeHandle (w : World) (hid : Nat) : World :=
  match w.handles[hid]? with
  | some h => { w with handles := w.handles.set hid ⟨h.path, false⟩ }
  | none => w

/-- Appending one line to the file at `path`; a write to an absent path
changes nothing (the failed write's error is discarded by the caller). -/
def World.writeToFile (w : World) (path line : String) : World :=
  { w with files := fun q => if q = path then (w.files q).map (fun ls => ls ++ [line]) else w.files q }

/-- A write through handle `hid`: appends only when the handle exists and
is still open; otherwise the underlying write errors and the error is
ignored, so nothing changes. -/
def World.writeHandle (w : World) (hid : Nat) (line : String) : World :=
  match w.handles[hid]? with
  | some h => if h.isOpen then w.writeToFile h.path line else w
  | none => w

/-- `os.Remove` on `logDir/name` plus its effect on the directory listing:
the entry disappears from the listing and the path's contents are gone. -/
def World.removeFile (w : World) (logDir : String) (e : FileEntry) : World :=
  { w with dirEntries := w.dirEntries.erase e,
           files := fun q => if q = logDir ++ "/" ++ e.name then none else w.files q }

/-- The `"[LEVEL] message"` payload built by `(*Logger).log` via
`fmt.Sprintf("[%s] "+format, ...)`. -/
def fmtLine (level msg : String) : String :=
  "[" ++ level ++ "] " ++ msg

/-- `(*Logger).log`: returns unchanged when `l.logger == nil`, else writes
the formatted line through the stored writer (the error result of
`Output` is discarded). -/
def Logger.log (l : Logger) (w : World) (level msg : String) : World :=
  match l.sink with
  | none => w
  | some Sink.console => { w with consoleOut := w.consoleOut ++ [fmtLine level msg] }
  | some (Sink.file hid) => w.writeHandle hid (fmtLine level msg)

/-- `(*Logger).Debug`: `if l.level > DebugLevel { return }`, then the
locked write. -/
def Logger.Debug (l : Logger) (w : World) (msg : String) : World :=
  if l.level > DebugLevel then w else l.log w "DEBUG" msg

/-- `(*Logger).Info`. -/
def Logger.Info (l : Logger) (w : World) (msg : String) : World :=
  if l.level > InfoLevel then w else l.log w "INFO" msg

/-- `(*Logger).Warn`. -/
def Logger.Warn (l : Logger) (w : World) (msg : String) : World :=
  if l.level > WarnLevel then w else l.log w "WARN" msg

/-- `(*Logger).Error`. -/
def Logger.Error (l : Logger) (w : World) (msg : String) : World :=
  if l.level > ErrorLevel then w else l.log w "ERROR" msg

/-- `(*Logger).SetLevel`. -/
def Logger.SetLevel (l : Logger) (level : LogLevel) : Logger :=
  { l with level := level }

/-- `(*Logger).Close`: fires the cancellation (always present on a
constructed logger; `context.CancelFunc` is idempotent), then closes and
clears `currentFile` when set.  The `logger` field is left as it is. -/
def Logger.Close (l : Logger) (w : World) : World × Logger :=
  let l := { l with cancelled := true }
  match l.currentFile with
  | some hid => (w.closeHandle hid, { l with currentFile := none })
  | none => (w, l)

/-- The dated file name `{prefix}_{YYYY-MM-DD}.log` of `setupFileLogger`. -/
def logFileName (pfx today : String) : String :=
  pfx ++ "_" ++ today ++ ".log"

/-- `(*Logger).setupFileLogger`: closes the current file when one is open
(close failure only logged), recomputes today's path, opens it in
append-or-create mode, and rebinds both `currentFile` and the writer to
the fresh handle. -/
def Logger.setupFileLogger (l : Logger) (w : World) : Except String (World × Logger) :=
  let w := match l.currentFile with
    | some hid => w.closeHandle hid
    | none => w
  let l := { l with currentFile := none }
  let filePath := l.logDir ++ "/" ++ logFileName l.filePfx w.today
  match w.openAppend filePath with
  | none => Except.error "failed to open log file"
  | some (w, hid) => Except.ok (w, { l with currentFile := some hid, sink := some (Sink.file hid) })

/-- The candidate filter of `cleanupOldLogs`: a non-directory entry whose
name starts with `{prefix}_` and ends with `.log`
(`strings.HasPrefix` / `strings.HasSuffix`, rendered on the character
lists underlying the strings). -/
def isCandidate (pfx : String) (e : FileEntry) : Bool :=
  !e.isDir && (pfx ++ "_").data.isPrefixOf e.name.data
    && (".log".data.isSuffixOf e.name.data)

/-- The retention cutoff: local midnight of today minus the retention-day
count (`time.Date(y, m, d, 0, 0, 0, 0, loc).AddDate(0, 0, -retentionDays)`). -/
def cutoffTime (midnight : Int) (retentionDays : Int) : Int :=
  midnight - retentionDays * 86400

/-- The `oldFiles` slice of `cleanupOldLogs` before sorting: the
candidates whose modification time is strictly before the cutoff, in
directory-listing order. -/
def oldLogFiles (pfx : String) (midnight retentionDays : Int) (entries : List FileEntry) : List FileEntry :=
  entries.filter fun e => isCandidate pfx e && decide (e.modTime < cutoffTime midnight retentionDays)

/-- The strict comparator passed to `sort.Slice`:
`fileI.ModTime().Before(fileJ.ModTime())`. -/
def modTimeLess (a b : FileEntry) : Bool :=
  decide (a.modTime < b.modTime)

/-- Adjacent-pair sortedness for a strict comparator: no element is
strictly less than its predecessor. -/
def sortedBy (less : FileEntry → FileEntry → Bool) : List FileEntry → Bool
  | [] => true
  | [_] => true
  | a :: b :: rest => !less b a && sortedBy less (b :: rest)

/-- The documented contract of `sort.Slice less`: the output is a
permutation of the input that is sorted for `less`; stability is NOT
guaranteed. -/
def sortSliceSpec (less : FileEntry → FileEntry → Bool) (input output : List FileEntry) : Prop :=
  output.Perm input ∧ sortedBy less output = true

/-- The possible deletion sequences of one `cleanupOldLogs` run over the
listing `entries`: any order of the expired candidates that the
`sort.Slice` contract allows. -/
def deletionSequence (pfx : String) (midnight retentionDays : Int)
    (entries : List FileEntry) (out : List FileEntry) : Prop :=
  sortSliceSpec modTimeLess (oldLogFiles pfx midnight retentionDays entries) out

/-- `(*Logger).cleanupOldLogs`, executable form: directory-listing failure
is the only error; otherwise the expired candidates are removed (each
deletion followed by the `"Deleted old log file"` info entry through
`l.log`).  The concrete order used here, `List.mergeSort`, is one order
permitted by the `sort.Slice` contract; order-sensitive properties are
stated against `deletionSequence` instead. -/
def Logger.cleanupOldLogs (l : Logger) (w : World) : Except String World :=
  if w.readDirOk then
    let old := oldLogFiles l.filePfx w.midnight l.retentionDays w.dirEntries
    let old := old.mergeSort fun a b => !modTimeLess b a
    Except.ok <| old.foldl (fun w e =>
      let w := w.removeFile l.logDir e
      l.log w "INFO" ("Deleted old log file: " ++ (l.logDir ++ "/" ++ e.name))) w
  else
    Except.error "failed to read log directory"

/-- `(*Logger).rotateAndCleanup`: rotation then cleanup, both failures
only logged. -/
def Logger.rotateAndCleanup (l : Logger) (w : World) : World × Logger :=
  let p := match l.setupFileLogger w with
    | Except.ok wl => wl
    | Except.error _ => (w, l)
  match p.2.cleanupOldLogs p.1 with
  | Except.ok w2 => (w2, p.2)
  | Except.error _ => (p.1, p.2)

/-- The body of `InitGlobalLogger` after the singleton check: defaulting,
validation, construction, file setup, the initial cleanup.  Returns the
world alongside the outcome so that partial filesystem effects of a
failed construction are kept.  The `scheduleDailyTasks` goroutine start
has no synchronous effect and is not modelled. -/
def mkLogger (config : LoggerConfig) (w : World) : World × Except String Logger :=
  let config := if config.outputType = "" then { config with outputType := "console" } else config
  if config.outputType ≠ "console" ∧ config.outputType ≠ "file" then
    (w, Except.error ("invalid output type: " ++ config.outputType))
  else
    let config := if config.retentionDays ≤ 0 then { config with retentionDays := 7 } else config
    if config.outputType = "file" ∧ config.logDir = "" then
      (w, Except.error "log directory is required for file output")
    else if config.outputType = "file" ∧ config.filePfx = "" then
      (w, Except.error "file prefix is required for file output")
    else if config.outputType = "file" ∧ ¬ w.mkdirOk then
      (w, Except.error "failed to create log directory")
    else
      let logger : Logger :=
        { level := config.level, outputType := config.outputType,
          logDir := config.logDir, filePfx := config.filePfx,
          retentionDays := config.retentionDays,
          sink := none, currentFile := none, cancelled := false }
      if config.outputType = "console" then
        (w, Except.ok { logger with sink := some Sink.console })
      else
        match logger.setupFileLogger w with
        | Except.error e => (w, Except.error e)
        | Except.ok (w, logger) =>
          match logger.cleanupOldLogs w with
          | Except.error e => (w, Except.error ("failed to clean up old logs: " ++ e))
          | Except.ok w => (w, Except.ok logger)

/-- Process-wide state: the loggers that have been allocated (Go pointers
become indices into this heap), the `globalLogger` pointer, and the
machine state. -/
structure Proc where
  heap : List Logger
  global : Option Nat
  world : World

/-- `InitGlobalLogger`: under the registry lock, return the existing
singleton untouched when there is one (the configuration argument is not
even read); otherwise run the construction body and publish the new
instance only on success. -/
def Proc.initGlobalLogger (s : Proc) (config : LoggerConfig) : Proc × Except String Nat :=
  match s.global with
  | some i => (s, Except.ok i)
  | none =>
    match mkLogger config s.world with
    | (w, Except.error e) => ({ s with world := w }, Except.error e)
    | (w, Except.ok l) =>
      ({ heap := s.heap ++ [l], global := some s.heap.length, world := w },
       Except.ok s.heap.length)

/-- `GetLogger`: returns the `globalLogger` pointer. -/
def Proc.getLogger (s : Proc) : Option Nat :=
  s.global

/-- `(*Logger).Close` invoked on the heap cell `i` (the pointee is
mutated in place; nothing else is touched). -/
def Proc.closeAt (s : Proc) (i : Nat) : Proc :=
  match s.heap[i]? with
  | some l =>
    let p := l.Close s.world
    { s with heap := s.heap.set i p.2, world := p.1 }
  | none => s

/-- `ResetGlobalLogger`: closes the singleton when present and clears the
pointer. -/
def Proc.resetGlobalLogger (s : Proc) : Proc :=
  match s.global with
  | some i => { (s.closeAt i) with global := none }
  | none => s

/-- Did an `Except` come out as an error? -/
def isErr {A : Type} : Except String A → Bool
  | Except.error _ => true
  | Except.ok _ => false

/-- The condition under which the construction body fails, read off
`InitGlobalLogger`: unknown sink kind, or a file sink with a missing
directory or prefix, or a failing directory creation, initial file open,
or initial directory listing. -/
def initFails (config : LoggerConfig) (w : World) : Bool :=
  let kind := if config.outputType = "" then "console" else config.outputType
  (decide (kind ≠ "console") && decide (kind ≠ "file")) ||
    decide (kind = "file") &&
      (decide (config.logDir = "") || decide (config.filePfx = "") ||
        !w.mkdirOk || !w.openOk || !w.readDirOk)

/-- Stable insertion step: an element goes in front of the first element
it is not strictly later than, so elements with equal modification times
keep their original relative order. -/
def stableInsert (e : FileEntry) : List FileEntry → List FileEntry
  | [] => [e]
  | x :: xs => if e.modTime ≤ x.modTime then e :: x :: xs else x :: stableInsert e xs

/-- The stable sort by ascending modification time that the specification
describes (insertion sort, which is stable); to be compared with the
orders the code's `sort.Slice` contract actually allows. -/
def stableSortByModTime : List FileEntry → List FileEntry
  | [] => []
  | x :: xs => stableInsert x (stableSortByModTime xs)

/-- The accumulated output of the logger's active sink: console output for
a console sink, the contents of the handle's file for a file sink. -/
def World.sinkOutput (w : World) (l : Logger) : Option (List String) :=
  match l.sink with
  | none => none
  | some Sink.console => some w.consoleOut
  | some (Sink.file hid) =>
    match w.handles[hid]? with
    | some h => w.files h.path
    | none => none

/-- An open, usable sink: a console sink is always usable; a file sink
needs its handle to exist, be open, and point at an existing file. -/
def World.sinkOpen (w : World) (l : Logger) : Bool :=
  match l.sink with
  | none => false
  | some Sink.console => true
  | some (Sink.file hid) =>
    match w.handles[hid]? with
    | some h => h.isOpen && (w.files h.path).isSome
    | none => false

/-- A well-formed open file-sink logger, as produced by
`setupFileLogger`: `currentFile` and the writer hold the same handle,
which is open on an existing file. -/
def openFileLogger (w : World) (l : Logger) (hid : Nat) (p : String) : Prop :=
  l.sink = some (Sink.file hid) ∧ l.currentFile = some hid ∧
    w.handles[hid]? = some ⟨p, true⟩ ∧ (w.files p).isSome = true

/-!
## Lock-discipline traces

Each trace lists, in source order, the shared-state actions of one method
of `logger.go` on the path where its write happens (`readLevel` = read of
`l.level`, `writeLevel` = store to `l.level`, `readSink` = read of
`l.logger`, `emit` = the sink write inside `(*Logger).log`, `deleteFile` =
`os.Remove` in the cleanup loop, `lockAcquire`/`lockRelease` = `l.mu`). -/
inductive Act where
  | readLevel : Act
  | writeLevel : Act
  | readSink : Act
  | emit : Act
  | deleteFile : Act
  | lockAcquire : Act
  | lockRelease : Act
deriving DecidableEq, Repr

/-- `(*Logger).Debug` on the emitting path: the `l.level > DebugLevel`
check runs before `l.mu.Lock()`; the deferred unlock runs last. -/
def debugCallTrace : List Act :=
  [Act.readLevel, Act.lockAcquire, Act.readSink, Act.emit, Act.lockRelease]

/-- `(*Logger).Info` on the emitting path (same shape as `Debug`). -/
def infoCallTrace : List Act :=
  [Act.readLevel, Act.lockAcquire, Act.readSink, Act.emit, Act.lockRelease]

/-- `(*Logger).Warn` on the emitting path (same shape as `Debug`). -/
def warnCallTrace : List Act :=
  [Act.readLevel, Act.lockAcquire, Act.readSink, Act.emit, Act.lockRelease]

/-- `(*Logger).Error` on the emitting path (same shape as `Debug`). -/
def errorCallTrace : List Act :=
  [Act.readLevel, Act.lockAcquire, Act.readSink, Act.emit, Act.lockRelease]

/-- `(*Logger).SetLevel`: the store to `l.level` happens under `l.mu`. -/
def setLevelTrace : List Act :=
  [Act.lockAcquire, Act.writeLevel, Act.lockRelease]

/-- `(*Logger).cleanupOldLogs` deleting one file: the removal and the
`"Deleted old log file"` sink write run with `l.mu` never acquired
(neither `cleanupOldLogs` nor its callers `rotateAndCleanup` /
`InitGlobalLogger` take the instance lock around it). -/
def cleanupDeleteTrace : List Act :=
  [Act.deleteFile, Act.readSink, Act.emit]

/-- Every occurrence of `a` in the trace sits strictly inside a
lock-acquire/lock-release section (the accumulator is the current lock
depth). -/
def occursOnlyUnderLock (a : Act) : Nat → List Act → Bool
  | _, [] => true
  | d, Act.lockAcquire :: rest => occursOnlyUnderLock a (d + 1) rest
  | d, Act.lockRelease :: rest => occursOnlyUnderLock a (d - 1) rest
  | d, x :: rest => (decide (x ≠ a) || decide (0 < d)) && occursOnlyUnderLock a d rest

/-- The lock discipline C9 asserts for one method trace and one action:
the action occurs in the trace and only under the lock. -/
def underLockIn (tr : List Act) (a : Act) : Prop :=
  a ∈ tr ∧ occursOnlyUnderLock a 0 tr = true

instance (tr : List Act) (a : Act) : Decidable (underLockIn tr a) := by
  unfold underLockIn
  infer_instance

/-! ## Sample fixtures used by the witnesses -/

/-- A world with one open dated log file and benign filesystem outcomes. -/
def sampleWorld : World :=
  { files := fun q => if q = "logs/app_2025-10-11.log" then some [] else none,
    handles := [⟨"logs/app_2025-10-11.log", true⟩],
    consoleOut := [], dirEntries := [], today := "2025-10-11", midnight := 1760140800,
    mkdirOk := true, openOk := true, readDirOk := true }

/-- The file logger holding the open handle of `sampleWorld`, at threshold
`InfoLevel`. -/
def sampleLogger : Logger :=
  { level := InfoLevel, outputType := "file", logDir := "logs", filePfx := "app",
    retentionDays := 7, sink := some (Sink.file 0), currentFile := some 0, cancelled := false }

/-! ## Helper lemmas -/

theorem sinkOutput_log (l : Logger) (w : World) (level msg : String)
    (h : w.sinkOpen l = true) :
    (l.log w level msg).sinkOutput l =
      (w.sinkOutput l).map fun out => out ++ [fmtLine level msg] := by
  cases hs : l.sink with
  | none => simp [World.sinkOpen, hs] at h
  | some sk =>
    cases sk with
    | console => simp [Logger.log, World.sinkOutput, hs]
    | file hid =>
      cases hh : w.handles[hid]? with
      | none => simp [World.sinkOpen, hs, hh] at h
      | some hdl =>
        simp only [World.sinkOpen, hs, hh] at h
        simp only [Bool.and_eq_true] at h
        simp [Logger.log, World.sinkOutput, World.writeHandle, World.writeToFile,
          hs, hh, h.1]

/-- Mapping "append nothing" over an optional accumulated output changes
nothing. -/
theorem map_append_nil (o : Option (List String)) :
    (o.map fun out => out ++ ([] : List String)) = o := by
  cases o <;> simp

/-- **C1**: on an open logger, each severity call `S` (Debug=0, Info=1,
Warn=2, Error=3) appends its message to the active sink's accumulated
output exactly when `S` is at least the threshold `l.level` in effect at
the call. -/
theorem severity_emits_iff_threshold (l : Logger) (w : World) (msg : String)
    (h : w.sinkOpen l = true) :
    ((l.Debug w msg).sinkOutput l =
      (w.sinkOutput l).map fun out =>
        out ++ if DebugLevel ≥ l.level then [fmtLine "DEBUG" msg] else [])
  ∧ ((l.Info w msg).sinkOutput l =
      (w.sinkOutput l).map fun out =>
        out ++ if InfoLevel ≥ l.level then [fmtLine "INFO" msg] else [])
  ∧ ((l.Warn w msg).sinkOutput l =
      (w.sinkOutput l).map fun out =>
        out ++ if WarnLevel ≥ l.level then [fmtLine "WARN" msg] else [])
  ∧ ((l.Error w msg).sinkOutput l =
      (w.sinkOutput l).map fun out =>
        out ++ if ErrorLevel ≥ l.level then [fmtLine "ERROR" msg] else []) := by
  refine ⟨?_, ?_, ?_, ?_⟩
  · by_cases hl : l.level > DebugLevel
    · have hge : ¬ DebugLevel ≥ l.level := not_le.mpr hl
      simp [Logger.Debug, hl, hge, map_append_nil]
    · have hge : DebugLevel ≥ l.level := not_lt.mp hl
      simp [Logger.Debug, hl, hge, sinkOutput_log l w _ msg h]
  · by_cases hl : l.level > InfoLevel
    · have hge : ¬ InfoLevel ≥ l.level := not_le.mpr hl
      simp [Logger.Info, hl, hge, map_append_nil]
    · have hge : InfoLevel ≥ l.level := not_lt.mp hl
      simp [Logger.Info, hl, hge, sinkOutput_log l w _ msg h]
  · by_cases hl : l.level > WarnLevel
    · have hge : ¬ WarnLevel ≥ l.level := not_le.mpr hl
      simp [Logger.Warn, hl, hge, map_append_nil]
    · have hge : WarnLevel ≥ l.level := not_lt.mp hl
      simp [Logger.Warn, hl, hge, sinkOutput_log l w _ msg h]
  · by_cases hl : l.level > ErrorLevel
    · have hge : ¬ ErrorLevel ≥ l.level := not_le.mpr hl
      simp [Logger.Error, hl, hge, map_append_nil]
    · have hge : ErrorLevel ≥ l.level := not_lt.mp hl
      simp [Logger.Error, hl, hge, sinkOutput_log l w _ msg h]

/-- Witness for C1 at a concrete open file logger with threshold Info: a
Debug call appends nothing. -/
theorem severity_emits_iff_threshold_witness :
    sampleWorld.sinkOpen sampleLogger = true ∧
    (sampleLogger.Debug sampleWorld "m").sinkOutput sampleLogger =
      (sampleWorld.sinkOutput sampleLogger).map fun out =>
        out ++ if DebugLevel ≥ sampleLogger.level then [fmtLine "DEBUG" "m"] else [] :=
  ⟨by decide, (severity_emits_iff_threshold sampleLogger sampleWorld "m" (by decide)).1⟩

theorem closeHandle_handles_getElem (w : World) (hid : Nat) (p : String)
    (hh : w.handles[hid]? = some ⟨p, true⟩) :
    (w.closeHandle hid).handles[hid]? = some ⟨p, false⟩ := by
  have hlt : hid < w.handles.length := by
    rcases List.getElem?_eq_some.mp hh with ⟨hl, _⟩
    exact hl
  simp [World.closeHandle, hh, List.getElem?_set, hlt]

/-- **C6**: `Close` is idempotent (closing an already-closed logger is a
no-op on both the logger and the world), the sink handle is left closed,
and every severity call issued after `Close` returns with the world
entirely unchanged: no error, no reopened handle, and nothing appended to
the log file. -/
theorem close_idempotent_and_post_close_drops (l : Logger) (w : World) (hid : Nat) (p : String)
    (h : openFileLogger w l hid p) :
    ((l.Close w).2.Close (l.Close w).1 = l.Close w)
  ∧ ((l.Close w).1.handles[hid]? = some ⟨p, false⟩)
  ∧ (∀ msg, (l.Close w).2.Debug (l.Close w).1 msg = (l.Close w).1)
  ∧ (∀ msg, (l.Close w).2.Info (l.Close w).1 msg = (l.Close w).1)
  ∧ (∀ msg, (l.Close w).2.Warn (l.Close w).1 msg = (l.Close w).1)
  ∧ (∀ msg, (l.Close w).2.Error (l.Close w).1 msg = (l.Close w).1) := by
  obtain ⟨hs, hc, hh, _⟩ := h
  have hclosed := closeHandle_handles_getElem w hid p hh
  have hC : l.Close w = (w.closeHandle hid, { l with cancelled := true, currentFile := none }) := by
    simp [Logger.Close, hc]
  rw [hC]
  refine ⟨?_, ?_, ?_, ?_, ?_, ?_⟩
  · simp [Logger.Close]
  · exact hclosed
  · intro msg
    simp [Logger.Debug, Logger.log, hs, World.writeHandle, hclosed]
  · intro msg
    simp [Logger.Info, Logger.log, hs, World.writeHandle, hclosed]
  · intro msg
    simp [Logger.Warn, Logger.log, hs, World.writeHandle, hclosed]
  · intro msg
    simp [Logger.Error, Logger.log, hs, World.writeHandle, hclosed]

/-- Witness for C6 at the concrete open file logger. -/
theorem close_idempotent_and_post_close_drops_witness :
    openFileLogger sampleWorld sampleLogger 0 "logs/app_2025-10-11.log" ∧
    (sampleLogger.Close sampleWorld).2.Close (sampleLogger.Close sampleWorld).1 =
      sampleLogger.Close sampleWorld :=
  ⟨by constructor <;> simp [sampleLogger, sampleWorld],
   (close_idempotent_and_post_close_drops sampleLogger sampleWorld 0 "logs/app_2025-10-11.log"
     (by constructor <;> simp [sampleLogger, sampleWorld])).1⟩

/-- **C8**: invoking rotation again on the same calendar day is safe and
lossless: `setupFileLogger` succeeds, the same dated filename is bound,
the file is reopened in append mode with all previously written lines
intact, and a subsequent write appends after them. -/
theorem rotate_same_day_appends (l : Logger) (w : World) (hid : Nat) (p : String)
    (ls : List String)
    (hp : p = l.logDir ++ "/" ++ logFileName l.filePfx w.today)
    (h : openFileLogger w l hid p)
    (hf : w.files p = some ls)
    (hopen : w.openOk = true) :
    ∃ w2 l2, l.setupFileLogger w = Except.ok (w2, l2)
  ∧ l2.currentFile = some w.handles.length
  ∧ l2.sink = some (Sink.file w.handles.length)
  ∧ w2.handles[w.handles.length]? = some ⟨p, true⟩
  ∧ w2.files p = some ls
  ∧ ∀ lvl msg, (l2.log w2 lvl msg).files p = some (ls ++ [fmtLine lvl msg]) := by
  obtain ⟨hs, hc, hh, _⟩ := h
  have hw' : w.closeHandle hid = { w with handles := w.handles.set hid ⟨p, false⟩ } := by
    simp [World.closeHandle, hh]
  have hlen : (w.handles.set hid (⟨p, false⟩ : Handle)).length = w.handles.length :=
    List.length_set w.handles hid _
  have hset : l.setupFileLogger w =
      Except.ok
        ({ w with
            handles := w.handles.set hid ⟨p, false⟩ ++ [⟨p, true⟩],
            files := fun q => if q = p then some ((w.files p).getD []) else w.files q },
         { l with currentFile := some w.handles.length,
                  sink := some (Sink.file w.handles.length) }) := by
    simp only [Logger.setupFileLogger, hc, hw', World.openAppend]
    simp [hopen, hp, hlen]
  refine ⟨_, _, hset, rfl, rfl, ?_, ?_, ?_⟩
  · have : (w.handles.set hid (⟨p, false⟩ : Handle) ++ [(⟨p, true⟩ : Handle)])[w.handles.length]? =
        some ⟨p, true⟩ := by
      rw [show w.handles.length = (w.handles.set hid (⟨p, false⟩ : Handle)).length from hlen.symm]
      simp
    exact this
  · simp [hf]
  · intro lvl msg
    have hget : (w.handles.set hid (⟨p, false⟩ : Handle) ++ [(⟨p, true⟩ : Handle)])[w.handles.length]? =
        some ⟨p, true⟩ := by
      rw [show w.handles.length = (w.handles.set hid (⟨p, false⟩ : Handle)).length from hlen.symm]
      simp
    simp [Logger.log, World.writeHandle, hget, World.writeToFile, hf]

/-- Witness for C8 at the concrete open file logger of `sampleWorld`. -/
theorem rotate_same_day_appends_witness :
    ("logs/app_2025-10-11.log" =
        sampleLogger.logDir ++ "/" ++ logFileName sampleLogger.filePfx sampleWorld.today
      ∧ openFileLogger sampleWorld sampleLogger 0 "logs/app_2025-10-11.log"
      ∧ sampleWorld.files "logs/app_2025-10-11.log" = some []
      ∧ sampleWorld.openOk = true)
  ∧ ∃ w2 l2, sampleLogger.setupFileLogger sampleWorld = Except.ok (w2, l2)
      ∧ l2.currentFile = some sampleWorld.handles.length
      ∧ l2.sink = some (Sink.file sampleWorld.handles.length)
      ∧ w2.handles[sampleWorld.handles.length]? = some ⟨"logs/app_2025-10-11.log", true⟩
      ∧ w2.files "logs/app_2025-10-11.log" = some []
      ∧ ∀ lvl msg, (l2.log w2 lvl msg).files "logs/app_2025-10-11.log" =
          some ([] ++ [fmtLine lvl msg]) :=
  ⟨⟨by decide, by constructor <;> simp [sampleLogger, sampleWorld], by decide, by decide⟩,
   rotate_same_day_appends sampleLogger sampleWorld 0 "logs/app_2025-10-11.log" []
     (by decide) (by constructor <;> simp [sampleLogger, sampleWorld]) (by decide) (by decide)⟩

/-! ## Cleanup fixtures: a listing with one expired candidate, one
boundary candidate, one fresh candidate, one non-matching file, and one
matching-named subdirectory (midnight 1760140800, retention 1 day, so the
cutoff is 1760054400). -/

def cleanupEntries : List FileEntry :=
  [⟨"cleantest_2025-07-01.log", false, 1759881600⟩,
   ⟨"cleantest_2025-10-10.log", false, 1760054400⟩,
   ⟨"cleantest_2025-10-11.log", false, 1760100000⟩,
   ⟨"otherfile.log", false, 0⟩,
   ⟨"cleantest_dir.log", true, 0⟩]

/-- The one deletion the fixture listing yields. -/
def cleanupOut : List FileEntry :=
  [⟨"cleantest_2025-07-01.log", false, 1759881600⟩]

/-- Two expired candidates with equal modification times, for the
tie-order analysis of the deletion sequence. -/
def cexEntryA : FileEntry := ⟨"p_2025-01-01.log", false, 5⟩

def cexEntryB : FileEntry := ⟨"p_2025-01-02.log", false, 5⟩

/-- **C4**: a cleanup run deletes an entry of the listing exactly when it
is a candidate (`{prefix}_*.log`, not a directory) whose last-modified
time is strictly before the cutoff `midnight - retentionDays * 86400`; an
entry dated exactly at the cutoff is kept. -/
theorem cleanup_deletes_iff_strictly_before_cutoff (pfx : String) (midnight R : Int)
    (entries out : List FileEntry) (h : deletionSequence pfx midnight R entries out) :
    ∀ e ∈ entries,
      (e ∈ out ↔ isCandidate pfx e = true ∧ e.modTime < cutoffTime midnight R)
    ∧ (e.modTime = cutoffTime midnight R → e ∉ out) := by
  obtain ⟨hperm, _⟩ := h
  intro e he
  constructor
  · rw [hperm.mem_iff]
    simp [oldLogFiles, List.mem_filter, he]
  · intro heq hmem
    rw [hperm.mem_iff] at hmem
    simp [oldLogFiles, List.mem_filter, heq] at hmem

/-- Witness for C4 on the fixture listing. -/
theorem cleanup_deletes_iff_strictly_before_cutoff_witness :
    deletionSequence "cleantest" 1760140800 1 cleanupEntries cleanupOut
  ∧ ∀ e ∈ cleanupEntries,
      (e ∈ cleanupOut ↔ isCandidate "cleantest" e = true ∧ e.modTime < cutoffTime 1760140800 1)
    ∧ (e.modTime = cutoffTime 1760140800 1 → e ∉ cleanupOut) :=
  ⟨⟨by decide, by decide⟩,
   cleanup_deletes_iff_strictly_before_cutoff "cleantest" 1760140800 1 cleanupEntries cleanupOut
     ⟨by decide, by decide⟩⟩

/-- **C5**: a cleanup run only ever deletes non-directory entries matching
`{prefix}_*.log`; anything not matching, and any subdirectory, stays out
of the deletion sequence regardless of its age. -/
theorem cleanup_touches_only_matching_files (pfx : String) (midnight R : Int)
    (entries out : List FileEntry) (h : deletionSequence pfx midnight R entries out) :
    (∀ e ∈ out, e ∈ entries ∧ isCandidate pfx e = true)
  ∧ (∀ e ∈ entries, isCandidate pfx e = false → e ∉ out)
  ∧ (∀ e ∈ entries, e.isDir = true → e ∉ out) := by
  obtain ⟨hperm, _⟩ := h
  refine ⟨?_, ?_, ?_⟩
  · intro e he
    have he2 := hperm.mem_iff.mp he
    simp only [oldLogFiles, List.mem_filter, Bool.and_eq_true, decide_eq_true_eq] at he2
    exact ⟨he2.1, he2.2.1⟩
  · intro e _ hnc hmem
    have he2 := hperm.mem_iff.mp hmem
    simp [oldLogFiles, List.mem_filter, hnc] at he2
  · intro e _ hdir hmem
    have he2 := hperm.mem_iff.mp hmem
    simp [oldLogFiles, List.mem_filter, isCandidate, hdir] at he2

/-- Witness for C5 on the fixture listing. -/
theorem cleanup_touches_only_matching_files_witness :
    deletionSequence "cleantest" 1760140800 1 cleanupEntries cleanupOut
  ∧ ∀ e ∈ cleanupOut, e ∈ cleanupEntries ∧ isCandidate "cleantest" e = true :=
  ⟨⟨by decide, by decide⟩,
   (cleanup_touches_only_matching_files "cleantest" 1760140800 1 cleanupEntries cleanupOut
     ⟨by decide, by decide⟩).1⟩

/-- **C7 counterexample**: with two expired candidates carrying equal
modification times, the reversed order is also a deletion sequence the
code's `sort.Slice` contract allows, yet it differs from the stable sort
by ascending modification time — so the deletion sequence is not (in
general) the stable sort the claim asserts. -/
theorem cleanup_order_not_stable_sort_cex :
    deletionSequence "p" 86500 1 [cexEntryA, cexEntryB] [cexEntryB, cexEntryA]
  ∧ [cexEntryB, cexEntryA] ≠ stableSortByModTime (oldLogFiles "p" 86500 1 [cexEntryA, cexEntryB]) :=
  ⟨⟨by decide, by decide⟩, by decide⟩

theorem pairwise_of_sortedBy : ∀ (l : List FileEntry), sortedBy modTimeLess l = true →
    l.Pairwise fun a b => a.modTime ≤ b.modTime := by
  intro l
  induction l with
  | nil => intro _; exact List.Pairwise.nil
  | cons a rest ih =>
    cases rest with
    | nil => intro _; simp
    | cons b rest2 =>
      intro h
      simp only [sortedBy, Bool.and_eq_true, Bool.not_eq_true'] at h
      have hab : a.modTime ≤ b.modTime := by
        have h1 := h.1
        simp only [modTimeLess, decide_eq_false_iff_not, not_lt] at h1
        exact h1
      have hrest := ih h.2
      rw [List.pairwise_cons]
      refine ⟨?_, hrest⟩
      intro x hx
      rcases List.mem_cons.mp hx with rfl | hx2
      · exact hab
      · exact le_trans hab ((List.pairwise_cons.mp hrest).1 x hx2)

/-- **C7 amended**: every deletion sequence a cleanup run can produce is a
permutation of the expired candidates that is weakly ascending by
modification time; ties may be deleted in either order, because
`sort.Slice` is not a stable sort. -/
theorem cleanup_deletion_order_sorted (pfx : String) (midnight R : Int)
    (entries out : List FileEntry) (h : deletionSequence pfx midnight R entries out) :
    out.Perm (oldLogFiles pfx midnight R entries)
  ∧ out.Pairwise fun a b => a.modTime ≤ b.modTime := by
  obtain ⟨hperm, hsort⟩ := h
  exact ⟨hperm, pairwise_of_sortedBy out hsort⟩

/-- Witness for the amended C7 on the equal-time fixture. -/
theorem cleanup_deletion_order_sorted_witness :
    deletionSequence "p" 86500 1 [cexEntryA, cexEntryB] [cexEntryB, cexEntryA]
  ∧ ([cexEntryB, cexEntryA].Perm (oldLogFiles "p" 86500 1 [cexEntryA, cexEntryB])
      ∧ [cexEntryB, cexEntryA].Pairwise fun a b => a.modTime ≤ b.modTime) :=
  ⟨⟨by decide, by decide⟩,
   cleanup_deletion_order_sorted "p" 86500 1 [cexEntryA, cexEntryB] [cexEntryB, cexEntryA]
     ⟨by decide, by decide⟩⟩

/-- **C9 counterexample**: the threshold read of each severity method
happens outside the instance lock (it is not re-checked under it), and
the cleanup loop's deletion-info sink write happens with the instance
lock never held — so not all sink writes are ordered by that lock. -/
theorem threshold_check_outside_lock_cex :
    ¬ underLockIn debugCallTrace Act.readLevel
  ∧ ¬ underLockIn infoCallTrace Act.readLevel
  ∧ ¬ underLockIn warnCallTrace Act.readLevel
  ∧ ¬ underLockIn errorCallTrace Act.readLevel
  ∧ ¬ underLockIn cleanupDeleteTrace Act.emit := by decide

/-- **C9 amended**: the threshold is read once, first, before the lock is
acquired; the severity methods' sink writes and the `SetLevel` threshold
store do execute under the instance lock, while the cleanup loop never
acquires it for its sink writes. -/
theorem lock_discipline_actual :
    underLockIn debugCallTrace Act.emit
  ∧ underLockIn infoCallTrace Act.emit
  ∧ underLockIn warnCallTrace Act.emit
  ∧ underLockIn errorCallTrace Act.emit
  ∧ underLockIn setLevelTrace Act.writeLevel
  ∧ debugCallTrace.head? = some Act.readLevel
  ∧ Act.lockAcquire ∉ cleanupDeleteTrace := by decide

/-! ## Registry fixtures -/

/-- A process with no singleton yet. -/
def sampleProcEmpty : Proc := { heap := [], global := none, world := sampleWorld }

/-- A process whose singleton is `sampleLogger` at heap index 0. -/
def sampleProcWith : Proc := { heap := [sampleLogger], global := some 0, world := sampleWorld }

set_option maxHeartbeats 1000000 in
theorem mkLogger_isErr (config : LoggerConfig) (w : World) :
    isErr (mkLogger config w).2 = initFails config w := by
  by_cases h0 : config.outputType = ""
  · simp [mkLogger, initFails, isErr, h0, apply_ite LoggerConfig.outputType,
      apply_ite LoggerConfig.logDir, apply_ite LoggerConfig.filePfx]
  · by_cases hc : config.outputType = "console"
    · simp [mkLogger, initFails, isErr, h0, hc, apply_ite LoggerConfig.outputType,
        apply_ite LoggerConfig.logDir, apply_ite LoggerConfig.filePfx]
    · by_cases hf : config.outputType = "file"
      · by_cases hd : config.logDir = ""
        · simp [mkLogger, initFails, isErr, h0, hf, hd, apply_ite LoggerConfig.outputType,
            apply_ite LoggerConfig.logDir, apply_ite LoggerConfig.filePfx]
        · by_cases hp : config.filePfx = ""
          · simp [mkLogger, initFails, isErr, h0, hf, hd, hp, apply_ite LoggerConfig.outputType,
              apply_ite LoggerConfig.logDir, apply_ite LoggerConfig.filePfx]
          · cases hm : w.mkdirOk with
            | false =>
              simp [mkLogger, initFails, isErr, h0, hf, hd, hp, hm,
                apply_ite LoggerConfig.outputType,
                apply_ite LoggerConfig.logDir, apply_ite LoggerConfig.filePfx]
            | true =>
              cases ho : w.openOk with
              | false =>
                simp [mkLogger, initFails, isErr, h0, hf, hd, hp, hm, ho,
                  Logger.setupFileLogger, World.openAppend, Logger.cleanupOldLogs,
                  apply_ite LoggerConfig.outputType,
                  apply_ite LoggerConfig.logDir, apply_ite LoggerConfig.filePfx]
              | true =>
                cases hr : w.readDirOk with
                | false =>
                  simp [mkLogger, initFails, isErr, h0, hf, hd, hp, hm, ho, hr,
                    Logger.setupFileLogger, World.openAppend, Logger.cleanupOldLogs,
                    apply_ite LoggerConfig.outputType,
                    apply_ite LoggerConfig.logDir, apply_ite LoggerConfig.filePfx]
                | true =>
                  simp [mkLogger, initFails, isErr, h0, hf, hd, hp, hm, ho, hr,
                    Logger.setupFileLogger, World.openAppend, Logger.cleanupOldLogs,
                    apply_ite LoggerConfig.outputType,
                    apply_ite LoggerConfig.logDir, apply_ite LoggerConfig.filePfx]
      · simp [mkLogger, initFails, isErr, h0, hc, hf, apply_ite LoggerConfig.outputType,
          apply_ite LoggerConfig.logDir, apply_ite LoggerConfig.filePfx]

set_option maxHeartbeats 1000000 in
theorem mkLogger_fields (config : LoggerConfig) (w w2 : World) (l : Logger)
    (h : mkLogger config w = (w2, Except.ok l)) :
    l.level = config.level ∧ l.logDir = config.logDir ∧ l.filePfx = config.filePfx
  ∧ l.retentionDays = (if config.retentionDays ≤ 0 then 7 else config.retentionDays)
  ∧ l.outputType = (if config.outputType = "" then "console" else config.outputType) := by
  by_cases h0 : config.outputType = ""
  · simp [mkLogger, h0, Prod.mk.injEq, apply_ite LoggerConfig.outputType,
      apply_ite LoggerConfig.logDir, apply_ite LoggerConfig.filePfx] at h
    obtain ⟨-, hl⟩ := h
    subst hl
    simp [h0, apply_ite LoggerConfig.level, apply_ite LoggerConfig.retentionDays]
  · by_cases hc : config.outputType = "console"
    · simp [mkLogger, h0, hc, Prod.mk.injEq, apply_ite LoggerConfig.outputType,
        apply_ite LoggerConfig.logDir, apply_ite LoggerConfig.filePfx] at h
      obtain ⟨-, hl⟩ := h
      subst hl
      simp [h0, hc, apply_ite LoggerConfig.level, apply_ite LoggerConfig.retentionDays]
    · by_cases hf : config.outputType = "file"
      · by_cases hd : config.logDir = ""
        · simp [mkLogger, h0, hf, hd, Prod.mk.injEq, apply_ite LoggerConfig.outputType,
            apply_ite LoggerConfig.logDir, apply_ite LoggerConfig.filePfx] at h
        · by_cases hp : config.filePfx = ""
          · simp [mkLogger, h0, hf, hd, hp, Prod.mk.injEq, apply_ite LoggerConfig.outputType,
              apply_ite LoggerConfig.logDir, apply_ite LoggerConfig.filePfx] at h
          · cases hm : w.mkdirOk with
            | false =>
              simp [mkLogger, h0, hf, hd, hp, hm, Prod.mk.injEq,
                apply_ite LoggerConfig.outputType,
                apply_ite LoggerConfig.logDir, apply_ite LoggerConfig.filePfx] at h
            | true =>
              cases ho : w.openOk with
              | false =>
                simp [mkLogger, h0, hf, hd, hp, hm, ho, Prod.mk.injEq,
                  Logger.setupFileLogger, World.openAppend, Logger.cleanupOldLogs,
                  apply_ite LoggerConfig.outputType,
                  apply_ite LoggerConfig.logDir, apply_ite LoggerConfig.filePfx] at h
              | true =>
                cases hr : w.readDirOk with
                | false =>
                  simp [mkLogger, h0, hf, hd, hp, hm, ho, hr, Prod.mk.injEq,
                    Logger.setupFileLogger, World.openAppend, Logger.cleanupOldLogs,
                    apply_ite LoggerConfig.outputType,
                    apply_ite LoggerConfig.logDir, apply_ite LoggerConfig.filePfx] at h
                | true =>
                  simp [mkLogger, h0, hf, hd, hp, hm, ho, hr, Prod.mk.injEq,
                    Logger.setupFileLogger, World.openAppend, Logger.cleanupOldLogs,
                    apply_ite LoggerConfig.outputType,
                    apply_ite LoggerConfig.logDir, apply_ite LoggerConfig.filePfx] at h
                  obtain ⟨-, hl⟩ := h
                  subst hl
                  simp [h0, hf, apply_ite LoggerConfig.level, apply_ite LoggerConfig.retentionDays]
      · simp [mkLogger, h0, hc, hf, Prod.mk.injEq, apply_ite LoggerConfig.outputType,
          apply_ite LoggerConfig.logDir, apply_ite LoggerConfig.filePfx] at h

/-- **C2**: with no singleton present, initialization fails exactly when
the sink kind (after defaulting "" to console) is neither console nor
file, or a file sink is missing its directory or prefix, or directory
creation, the initial file open, or the initial cleanup's directory
listing fails; on any failure the singleton stays absent; and on success
a non-positive retention-days value has been replaced by the default 7
rather than rejected. -/
theorem init_error_iff (s : Proc) (config : LoggerConfig) (h : s.global = none) :
    (isErr (s.initGlobalLogger config).2 = initFails config s.world)
  ∧ (initFails config s.world = true → (s.initGlobalLogger config).1.global = none)
  ∧ (∀ j, (s.initGlobalLogger config).2 = Except.ok j →
      ∃ l, (s.initGlobalLogger config).1.heap[j]? = some l ∧
        l.retentionDays = (if config.retentionDays ≤ 0 then 7 else config.retentionDays)) := by
  rcases hmk : mkLogger config s.world with ⟨w2, r⟩
  have hie := mkLogger_isErr config s.world
  rw [hmk] at hie
  cases r with
  | error e =>
    refine ⟨?_, ?_, ?_⟩
    · have : initFails config s.world = true := by rw [← hie]; rfl
      simp [Proc.initGlobalLogger, h, hmk, isErr, this]
    · intro _
      simp [Proc.initGlobalLogger, h, hmk]
    · intro j hj
      simp [Proc.initGlobalLogger, h, hmk] at hj
  | ok l =>
    have hflds := mkLogger_fields config s.world w2 l hmk
    refine ⟨?_, ?_, ?_⟩
    · have : initFails config s.world = false := by rw [← hie]; rfl
      simp [Proc.initGlobalLogger, h, hmk, isErr, this]
    · intro hbad
      rw [← hie] at hbad
      simp [isErr] at hbad
    · intro j hj
      simp only [Proc.initGlobalLogger, h, hmk] at hj ⊢
      have hj2 : s.heap.length = j := by
        simpa using hj
      refine ⟨l, ?_, hflds.2.2.2.1⟩
      rw [← hj2]
      simp

/-- Witness for C2: the empty-configuration (console) initialization on a
fresh process succeeds, matching `initFails = false`. -/
theorem init_error_iff_witness :
    sampleProcEmpty.global = none
  ∧ isErr (sampleProcEmpty.initGlobalLogger {}).2 = initFails ({} : LoggerConfig) sampleProcEmpty.world :=
  ⟨rfl, (init_error_iff sampleProcEmpty {} rfl).1⟩

/-- **C3**: when a singleton exists, any further initialization returns
the process state untouched together with the existing instance, for
every configuration; after a reset, a succeeding initialization with a
new configuration allocates a genuinely new instance (a fresh heap cell,
distinct from the old one) whose fields reflect the new configuration
with its defaults applied. -/
theorem init_returns_existing_and_reset_renews (s : Proc) (i : Nat) (cfgNew : LoggerConfig)
    (h : s.global = some i) (hi : i < s.heap.length) :
    (∀ cfg, s.initGlobalLogger cfg = (s, Except.ok i))
  ∧ (∀ j, ((s.resetGlobalLogger).initGlobalLogger cfgNew).2 = Except.ok j →
      j = s.heap.length ∧ ¬ j = i
      ∧ ((s.resetGlobalLogger).initGlobalLogger cfgNew).1.global = some j
      ∧ ∃ l, ((s.resetGlobalLogger).initGlobalLogger cfgNew).1.heap[j]? = some l
          ∧ l.level = cfgNew.level ∧ l.logDir = cfgNew.logDir ∧ l.filePfx = cfgNew.filePfx
          ∧ l.retentionDays = (if cfgNew.retentionDays ≤ 0 then 7 else cfgNew.retentionDays)
          ∧ l.outputType = (if cfgNew.outputType = "" then "console" else cfgNew.outputType)) := by
  have hg1 : s.resetGlobalLogger.global = none := by
    simp [Proc.resetGlobalLogger, h]
  have hlen : s.resetGlobalLogger.heap.length = s.heap.length := by
    simp [Proc.resetGlobalLogger, h, Proc.closeAt]
    cases hsi : s.heap[i]? <;> simp
  constructor
  · intro cfg
    simp [Proc.initGlobalLogger, h]
  · intro j hj
    rcases hmk : mkLogger cfgNew (s.resetGlobalLogger).world with ⟨w2, r⟩
    cases r with
    | error e =>
      simp [Proc.initGlobalLogger, hg1, hmk] at hj
    | ok l =>
      have hflds := mkLogger_fields cfgNew _ w2 l hmk
      simp only [Proc.initGlobalLogger, hg1, hmk] at hj ⊢
      have hj2 : s.resetGlobalLogger.heap.length = j := by
        simpa using hj
      have hj3 : j = s.heap.length := by rw [← hj2, hlen]
      refine ⟨hj3, by omega,
        by rw [← hj2],
        ⟨l, ?_, hflds.1, hflds.2.1, hflds.2.2.1, hflds.2.2.2.1, hflds.2.2.2.2⟩⟩
      rw [← hj2]
      simp

/-- Witness for C3: re-initializing an already-initialized process with
any configuration returns the same state and instance 0. -/
theorem init_returns_existing_and_reset_renews_witness :
    (sampleProcWith.global = some 0 ∧ 0 < sampleProcWith.heap.length)
  ∧ sampleProcWith.initGlobalLogger ({} : LoggerConfig) = (sampleProcWith, Except.ok 0) :=
  ⟨⟨rfl, by decide⟩,
   (init_returns_existing_and_reset_renews sampleProcWith 0 ({} : LoggerConfig) rfl
     (by decide)).1 {}⟩

/-- **C10**: closing the singleton does not unregister it: `get` still
returns the same (now closed) instance, and only `reset` clears the
pointer back to absence. -/
theorem close_keeps_global_registration (s : Proc) (i : Nat)
    (h : s.global = some i) (hi : i < s.heap.length) :
    ((s.closeAt i).getLogger = some i)
  ∧ (∃ l, s.heap[i]? = some l ∧ (s.closeAt i).heap[i]? = some (l.Close s.world).2)
  ∧ ((s.resetGlobalLogger).getLogger = none) := by
  have hsi : s.heap[i]? = some (s.heap.get ⟨i, hi⟩) := by
    rw [List.getElem?_eq_getElem hi]
    rfl
  refine ⟨?_, ⟨s.heap.get ⟨i, hi⟩, hsi, ?_⟩, ?_⟩
  · simp [Proc.closeAt, hsi, Proc.getLogger, h]
  · simp [Proc.closeAt, hsi, List.getElem?_set, hi]
  · simp [Proc.resetGlobalLogger, h, Proc.getLogger]

/-- Witness for C10: after closing the registered instance of the sample
process, `get` still returns it. -/
theorem close_keeps_global_registration_witness :
    (sampleProcWith.global = some 0 ∧ 0 < sampleProcWith.heap.length)
  ∧ (sampleProcWith.closeAt 0).getLogger = some 0 :=
  ⟨⟨rfl, by decide⟩, (close_keeps_global_registration sampleProcWith 0 rfl (by decide)).1⟩

end GoJob
